import Mathlib

/-!
Verification of `src/Tools/git_commit_agent.py`.

Text is modelled as `List Char` (Python `str`), machine integers as `Nat`
(all counts in the program are non-negative), and the interactions with the
external `git` binary and the generation API as explicit environment records
whose fields hold the (already `strip()`-trimmed) results the Python
`run_git` helper would return.
-/

/-- Boolean test that `lit` is a leading segment of `s`
(the anchored part of a `re.search` literal). -/
def litPre : List Char → List Char → Bool
  | [], _ => true
  | _ :: _, [] => false
  | p :: ps, c :: cs => p == c && litPre ps cs

/-- Maximal leading run of decimal digits, the greedy capture of a
leading regex group of one or more digits. -/
def takeDigits : List Char → List Char
  | [] => []
  | c :: cs => if c.isDigit then c :: takeDigits cs else []

/-- Decimal value of a digit string: what Python `int()` returns on the
captured group. -/
def decodeDigits (ds : List Char) : Nat :=
  ds.foldl (fun acc c => 10 * acc + (c.toNat - '0'.toNat)) 0

/-- Attempt, anchored at the start of `s`, to match the regex
`lit(\d+)`: the literal `lit` followed by one or more digits, the digit
run taken greedily.  Returns the decoded capture on success. -/
def matchAt (lit s : List Char) : Option Nat :=
  if litPre lit s then
    let ds := takeDigits (s.drop lit.length)
    if ds.isEmpty then none else some (decodeDigits ds)
  else none

/-- `re.search` for the pattern `lit(\d+)`: try every start position left
to right and return the first match's decoded capture. -/
def searchLitNum (lit : List Char) : List Char → Option Nat
  | [] => none
  | c :: cs =>
    match matchAt lit (c :: cs) with
    | some n => some n
    | none => searchLitNum lit cs

/-- Attempt, anchored at the start of `s`, to match `(\d+)` followed by
one of the alternative literals in `alts` (used for patterns such as
`(\d+) files? changed`, whose optional letter expands into two literal
alternatives).  The digit run is greedy; since no literal alternative
starts with a digit, greediness never needs backtracking. -/
def matchNumLit (alts : List (List Char)) (s : List Char) : Option Nat :=
  let ds := takeDigits s
  if ds.isEmpty then none
  else if alts.any (fun lit => litPre lit (s.drop ds.length)) then
    some (decodeDigits ds)
  else none

/-- `re.search` for `(\d+)` followed by one of the literals in `alts`:
first matching start position wins. -/
def searchNumLit (alts : List (List Char)) : List Char → Option Nat
  | [] => none
  | c :: cs =>
    match matchNumLit alts (c :: cs) with
    | some n => some n
    | none => searchNumLit alts cs

/-- The literal part of the pattern `ahead (\d+)`. -/
def aheadLit : List Char := "ahead ".data

/-- The literal part of the pattern `behind (\d+)`. -/
def behindLit : List Char := "behind ".data

/-- Embeds `parse_tracking_info` (git_commit_agent.py lines 134-155):
two independent `re.search` calls for `ahead (\d+)` and `behind (\d+)`,
each field defaulting to 0 when its pattern is absent, after an early
return of (0, 0) on empty input. -/
def parse_tracking_info (track_info : List Char) : Nat × Nat :=
  if track_info.isEmpty then (0, 0)
  else
    ((searchLitNum aheadLit track_info).getD 0,
     (searchLitNum behindLit track_info).getD 0)

/-- Literal alternatives after the capture in `(\d+) files? changed`. -/
def filesLits : List (List Char) := [" files changed".data, " file changed".data]

/-- Literal after the capture in `(\d+) insertions?` (the optional final
letter constrains nothing). -/
def insertionLits : List (List Char) := [" insertion".data]

/-- Literal after the capture in `(\d+) deletions?`. -/
def deletionLits : List (List Char) := [" deletion".data]

/-- Embeds the file-statistics parsing block shared by `get_branch_diff`
(lines 243-258) and `get_staged_changes` (lines 313-329): three
independent `re.search` calls over the diff-stat text, each field
defaulting to 0 when its pattern fails to match.
Result: (files_changed, insertions, deletions). -/
def parseFileStats (diff_stat : List Char) : Nat × Nat × Nat :=
  ((searchNumLit filesLits diff_stat).getD 0,
   (searchNumLit insertionLits diff_stat).getD 0,
   (searchNumLit deletionLits diff_stat).getD 0)

/-- The trailing annotation appended when a diff is truncated
(git_commit_agent.py lines 236 and 308): the f-string
interpolating the configured cap and the original size. -/
def truncNote (cap orig : Nat) : List Char :=
  "\n\n... [Truncated: showing first ".data ++ (Nat.repr cap).data
    ++ " of ".data ++ (Nat.repr orig).data ++ " characters]".data

/-- Embeds the diff-truncation block shared by `get_branch_diff`
(lines 232-236) and `get_staged_changes` (lines 304-308): when the text
is strictly longer than the cap it is cut to the first `max_diff_chars`
characters and the annotation is appended; otherwise it is unchanged. -/
def truncateDiff (max_diff_chars : Nat) (diff_content : List Char) : List Char :=
  if max_diff_chars < diff_content.length then
    diff_content.take max_diff_chars ++ truncNote max_diff_chars diff_content.length
  else diff_content

/-- The `Config` dataclass (lines 78-85). -/
structure Config where
  max_diff_chars : Nat
  model : List Char
  temperature : ℚ
  max_retries : Nat
  commit_types : List (List Char)
deriving DecidableEq

/-- The top-level key/value mapping shape of `DEFAULT_CONFIG` and of the
dictionary `load_config` builds before calling `Config(**config_dict)`. -/
structure ConfigDict where
  max_diff_chars : Nat
  model : List Char
  temperature : ℚ
  max_retries : Nat
  commit_types : List (List Char)
deriving DecidableEq

/-- The module-level `DEFAULT_CONFIG` mapping (lines 48-57). -/
def DEFAULT_CONFIG : ConfigDict where
  max_diff_chars := 50000
  model := "claude-sonnet-4-5-20250929".data
  temperature := 7 / 10
  max_retries := 3
  commit_types :=
    ["feat".data, "fix".data, "docs".data, "style".data, "refactor".data,
     "test".data, "chore".data, "perf".data, "ci".data, "build".data]

/-- `Config(**config_dict)`: read each field out of the mapping. -/
def configOfDict (d : ConfigDict) : Config where
  max_diff_chars := d.max_diff_chars
  model := d.model
  temperature := d.temperature
  max_retries := d.max_retries
  commit_types := d.commit_types

/-- A parsed user override file: a top-level key overlay, each key
optionally present (`dict.update` replaces exactly the present keys). -/
structure PartialConfig where
  max_diff_chars : Option Nat := none
  model : Option (List Char) := none
  temperature : Option ℚ := none
  max_retries : Option Nat := none
  commit_types : Option (List (List Char)) := none

/-- `config_dict.update(user_config)`: present keys of the override
replace the corresponding keys of the dictionary. -/
def dictUpdate (d : ConfigDict) (u : PartialConfig) : ConfigDict where
  max_diff_chars := u.max_diff_chars.getD d.max_diff_chars
  model := u.model.getD d.model
  temperature := u.temperature.getD d.temperature
  max_retries := u.max_retries.getD d.max_retries
  commit_types := u.commit_types.getD d.commit_types

/-- Embeds `load_config` (lines 441-479).  `moduleDefaults` is the
module-level `DEFAULT_CONFIG` mapping before the call; the first
component of the result is that mapping after the call.  The body
operates on `config_dict = DEFAULT_CONFIG.copy()`, a distinct value, so
the module-level mapping is returned untouched.  `userConfig = none`
covers every path on which no override is applied: no file found, an
unparseable file (warning, ignored), or a file parsing to a falsy
document; `some u` is a parsed override, whose top-level keys overlay
the copy via `dict.update`. -/
def load_config (moduleDefaults : ConfigDict) (yamlAvailable : Bool)
    (userConfig : Option PartialConfig) : ConfigDict × Config :=
  let config_dict := moduleDefaults
  if !yamlAvailable then (moduleDefaults, configOfDict config_dict)
  else
    match userConfig with
    | none => (moduleDefaults, configOfDict config_dict)
    | some u => (moduleDefaults, configOfDict (dictUpdate config_dict u))

/-- The module-level default mapping after a sequence of `load_config`
calls, threading the mapping through each call. -/
def runLoads (st : ConfigDict) : List (Bool × Option PartialConfig) → ConfigDict
  | [] => st
  | (y, o) :: rest => runLoads (load_config st y o).1 rest

/-- The `BranchInfo` dataclass (lines 63-75). -/
structure BranchInfo where
  name : List Char
  upstream : Option (List Char)
  ahead : Nat
  behind : Nat
  diff_stat : List Char
  diff_content : List Char
  commit_log : List Char
  files_changed : Nat := 0
  insertions : Nat := 0
  deletions : Nat := 0
deriving DecidableEq

/-- The literal `"refs/remotes/"` removed from the symbolic-ref output. -/
def remotesLit : List Char := "refs/remotes/".data

/-- Left-to-right scan for Python `s.replace("refs/remotes/", "")`: in
state `0` test for a match at the current position and on a match drop
the matched characters (the head now, the remaining `12` via the
counter, since `remotesLit` has length 13) before resuming the scan;
otherwise keep the head character. -/
def stripAux : Nat → List Char → List Char
  | _, [] => []
  | 0, c :: cs => if litPre remotesLit (c :: cs) then stripAux 12 cs else c :: stripAux 0 cs
  | k + 1, _ :: cs => stripAux k cs

/-- Python `s.replace("refs/remotes/", "")`: remove every non-overlapping
occurrence, scanning left to right and resuming after each removal. -/
def stripRemotesAll (s : List Char) : List Char :=
  stripAux 0 s

/-- The fallback upstream candidates tried in order (line 212). -/
def candidateUpstreams : List (List Char) :=
  ["origin/main".data, "origin/master".data, "main".data, "master".data]

/-- The candidate loop of lines 212-216: first candidate whose
`rev-parse --verify` succeeds. -/
def findCandidate (verify : List Char → Bool) : List (List Char) → Option (List Char)
  | [] => none
  | c :: cs => if verify c then some c else findCandidate verify cs

/-- Python truthiness test `not upstream` for an optional string. -/
def optFalsy : Option (List Char) → Bool
  | none => true
  | some u => u.isEmpty

/-- The per-branch results of the git calls `get_branch_diff` makes,
keyed by the arguments of each call; each field holds the (success,
trimmed output) pair `run_git` would return. -/
structure GitEnv where
  symRefOriginHead : Bool × List Char
  verifyRef : List Char → Bool
  diffStatFor : List Char → List Char → Bool × List Char
  diffFor : List Char → List Char → Bool × List Char
  logFor : List Char → List Char → Bool × List Char
  trackFor : List Char → Bool × List Char

/-- Embeds the upstream-resolution block of `get_branch_diff`
(lines 205-220): when the given upstream is falsy, try the remote's
symbolic default-branch reference (stripping `refs/remotes/`), else the
first verifiable candidate; a still-falsy result means the branch is
skipped (`none`). -/
def resolveUpstream (env : GitEnv) (upstream : Option (List Char)) : Option (List Char) :=
  if optFalsy upstream then
    let resolved :=
      if env.symRefOriginHead.1 then some (stripRemotesAll env.symRefOriginHead.2)
      else findCandidate env.verifyRef candidateUpstreams
    match resolved with
    | some v => if v.isEmpty then none else some v
    | none => none
  else upstream

/-- Embeds `get_branch_diff` (lines 193-279): resolve the upstream, get
the diff stat and the full diff (failure of either aborts with `none`),
truncate the diff, get the commit log (failure degrades to an empty
log), parse the file statistics, re-query the tracking counts, and build
the `BranchInfo`. -/
def get_branch_diff (env : GitEnv) (branch : List Char)
    (upstream0 : Option (List Char)) (config : Config) : Option BranchInfo :=
  match resolveUpstream env upstream0 with
  | none => none
  | some upstream =>
    let r1 := env.diffStatFor upstream branch
    if !r1.1 then none else
    let diff_stat := r1.2
    let r2 := env.diffFor upstream branch
    if !r2.1 then none else
    let diff_content := truncateDiff config.max_diff_chars r2.2
    let r3 := env.logFor upstream branch
    let commit_log := if r3.1 then r3.2 else []
    let stats := parseFileStats diff_stat
    let r4 := env.trackFor branch
    let ab := parse_tracking_info (if r4.1 then r4.2 else [])
    some {
      name := branch
      upstream := some upstream
      ahead := ab.1
      behind := ab.2
      diff_stat := diff_stat
      diff_content := diff_content
      commit_log := commit_log
      files_changed := stats.1
      insertions := stats.2.1
      deletions := stats.2.2 }

/-- The results of the git calls `get_staged_changes` makes. -/
structure StagedEnv where
  nameOnly : Bool × List Char
  cachedStat : Bool × List Char
  cachedDiff : Bool × List Char
  showCurrent : Bool × List Char

/-- Embeds `get_staged_changes` (lines 282-342): `none` when the staged
name-only listing fails or is empty, or when the stat or diff call
fails; otherwise the truncated diff and parsed statistics with
upstream/ahead/behind fixed at none/0/0 and an empty commit log.  The
branch label falls back to `"HEAD"` only when the branch query fails. -/
def get_staged_changes (env : StagedEnv) (config : Config) : Option BranchInfo :=
  if !env.nameOnly.1 || env.nameOnly.2.isEmpty then none else
  if !env.cachedStat.1 then none else
  let diff_stat := env.cachedStat.2
  if !env.cachedDiff.1 then none else
  let diff_content := truncateDiff config.max_diff_chars env.cachedDiff.2
  let branch_name := if env.showCurrent.1 then env.showCurrent.2 else "HEAD".data
  let stats := parseFileStats diff_stat
  some {
    name := branch_name
    upstream := none
    ahead := 0
    behind := 0
    diff_stat := diff_stat
    diff_content := diff_content
    commit_log := []
    files_changed := stats.1
    insertions := stats.2.1
    deletions := stats.2.2 }

/-- Outcome of one call to `client.messages.create`: a successful
response carrying the list of content-block texts, a rate-limit
exception, another API exception, or any other exception. -/
inductive ApiOutcome where
  | success (content : List (List Char))
  | rateLimit
  | apiError
  | otherError
deriving DecidableEq

/-- The error diagnostics `generate_commit_message` can print. -/
inductive GenError where
  | configError
  | rateLimitExhausted
  | apiFailure
  | unexpected
deriving DecidableEq

/-- Observable behaviour of one `generate_commit_message` call: how many
API calls were made, the backoff sleeps performed in order (seconds),
the returned message, and the diagnostics printed. -/
structure GenTrace where
  calls : Nat
  sleeps : List Nat
  result : Option (List Char)
  errors : List GenError
deriving DecidableEq

/-- Python `str.strip()`: remove leading and trailing whitespace. -/
def pyStrip (s : List Char) : List Char :=
  ((s.dropWhile Char.isWhitespace).reverse.dropWhile Char.isWhitespace).reverse

/-- Embeds the retry loop `for attempt in range(max_retries)`
(lines 402-434) over the remaining attempt indices.  `last` is
`max_retries - 1`.  A successful response with non-empty content returns
its first block's stripped text; empty content falls through to the next
attempt; a rate-limit on `attempt < last` sleeps `2 ^ attempt` seconds
and continues, and on the last attempt reports exhaustion; any other API
error or unexpected error returns immediately with no message. -/
def genLoop (api : Nat → ApiOutcome) (last : Nat) : List Nat → GenTrace
  | [] => { calls := 0, sleeps := [], result := none, errors := [] }
  | attempt :: rest =>
    match api attempt with
    | .success [] =>
      let t := genLoop api last rest
      { t with calls := t.calls + 1 }
    | .success (txt :: _) =>
      { calls := 1, sleeps := [], result := some (pyStrip txt), errors := [] }
    | .rateLimit =>
      if attempt < last then
        let t := genLoop api last rest
        { calls := t.calls + 1, sleeps := 2 ^ attempt :: t.sleeps,
          result := t.result, errors := t.errors }
      else { calls := 1, sleeps := [], result := none, errors := [.rateLimitExhausted] }
    | .apiError => { calls := 1, sleeps := [], result := none, errors := [.apiFailure] }
    | .otherError => { calls := 1, sleeps := [], result := none, errors := [.unexpected] }

/-- The environment `generate_commit_message` observes: the credential
variable read from the process environment, and the outcome each API
call attempt would have. -/
structure GenEnv where
  api_key : Option (List Char)
  api : Nat → ApiOutcome

/-- Embeds `generate_commit_message` (lines 349-434): a missing
credential is detected first and reported as a configuration error with
no API call; otherwise the retry loop runs over attempts
`0, ..., max_retries - 1`. -/
def generate_commit_message (env : GenEnv) (config : Config) : GenTrace :=
  match env.api_key with
  | none => { calls := 0, sleeps := [], result := none, errors := [.configError] }
  | some _ => genLoop env.api (config.max_retries - 1) (List.range config.max_retries)

/-- Python `str.split(sep)` for a one-character separator: always yields
at least one (possibly empty) part. -/
def splitOnChar (sep : Char) : List Char → List (List Char)
  | [] => [[]]
  | c :: cs =>
    if c == sep then [] :: splitOnChar sep cs
    else
      match splitOnChar sep cs with
      | [] => [[c]]
      | t :: ts => (c :: t) :: ts

/-- Embeds the `--branch` block of `main` (lines 656-678) down to its
exit code.  `lookup` is the result of the `for-each-ref` call for the
named branch; `diffRes` abstracts the later `get_branch_diff` result and
`msgRes` the later `generate_commit_message` result.  Lookup failure
exits 1 ("Branch not found"); a parsed ahead count of 0 is an
informational no-op exiting 0; after that, a failed diff or generation
exits 1 and success exits 0. -/
def branchMode (lookup : Bool × List Char) (diffRes : Option BranchInfo)
    (msgRes : Option (List Char)) : Nat :=
  if !lookup.1 then 1
  else
    let parts := splitOnChar '|' lookup.2
    let track_info := parts.getD 1 []
    let ab := parse_tracking_info track_info
    if ab.1 = 0 then 0
    else
      match diffRes with
      | none => 1
      | some _ =>
        match msgRes with
        | none => 1
        | some _ => 0

/-- Boolean test that `pat` occurs contiguously somewhere in `s`
(including at the very end for empty `pat`). -/
def containsLit (pat : List Char) : List Char → Bool
  | [] => litPre pat []
  | c :: cs => litPre pat (c :: cs) || containsLit pat cs

/-- Whether a text starts with a decimal digit (the boundary condition
under which a greedy digit run stops). -/
def headIsDigit : List Char → Bool
  | [] => false
  | c :: _ => c.isDigit


/-! ## Helper lemmas -/

theorem litPre_append {pat s : List Char} (t : List Char) (h : litPre pat s = true) :
    litPre pat (s ++ t) = true := by
  induction pat generalizing s with
  | nil => simp [litPre]
  | cons p ps ih =>
    cases s with
    | nil => simp [litPre] at h
    | cons c cs =>
      simp only [litPre, Bool.and_eq_true, beq_iff_eq] at h ⊢
      exact ⟨h.1, ih h.2⟩

theorem litPre_self_append (pat t : List Char) : litPre pat (pat ++ t) = true := by
  induction pat with
  | nil => simp [litPre]
  | cons p ps ih => simp [litPre, ih]

theorem containsLit_append_right {pat a : List Char} (t : List Char)
    (h : containsLit pat a = true) : containsLit pat (a ++ t) = true := by
  induction a with
  | nil =>
    simp only [containsLit] at h
    cases pat with
    | nil => cases t <;> simp [containsLit, litPre]
    | cons p ps => simp [litPre] at h
  | cons c cs ih =>
    simp only [containsLit, Bool.or_eq_true] at h ⊢
    cases h with
    | inl h => exact Or.inl (litPre_append t h)
    | inr h => exact Or.inr (ih h)

theorem containsLit_append_left (pat a : List Char) {t : List Char}
    (h : containsLit pat t = true) : containsLit pat (a ++ t) = true := by
  induction a with
  | nil => simpa using h
  | cons c cs ih => simp [containsLit, ih]

theorem containsLit_self_append (pat t : List Char) :
    containsLit pat (pat ++ t) = true := by
  cases pat with
  | nil => cases t <;> simp [containsLit, litPre]
  | cons p ps =>
    simp only [List.cons_append, containsLit, Bool.or_eq_true]
    exact Or.inl (by simpa using litPre_self_append (p :: ps) t)

theorem take_append_of_length {α : Type} {l₁ : List α} {n : Nat} (l₂ : List α)
    (h : l₁.length = n) : (l₁ ++ l₂).take n = l₁ := by
  induction l₁ generalizing n with
  | nil => simp at h; simp [h]
  | cons x xs ih =>
    cases n with
    | zero => simp at h
    | succ m =>
      simp only [List.length_cons, Nat.succ.injEq] at h
      simp [List.take, ih h]

theorem load_config_fst (d : ConfigDict) (y : Bool) (o : Option PartialConfig) :
    (load_config d y o).1 = d := by
  unfold load_config
  cases y <;> cases o <;> rfl

theorem runLoads_id (loads : List (Bool × Option PartialConfig)) (st : ConfigDict) :
    runLoads st loads = st := by
  induction loads generalizing st with
  | nil => rfl
  | cons p rest ih =>
    obtain ⟨y, o⟩ := p
    simp [runLoads, load_config_fst, ih]

/-! ## Claim theorems -/

/-- Claim C3: file statistics are parsed by three independent patterns;
each field is exactly the result of its own search with a failing
pattern yielding 0 for that field only; the empty summary yields
(0, 0, 0); the spec's three concrete summaries parse as stated. -/
theorem file_stats_spec :
    (∀ s : List Char, searchNumLit filesLits s = none → (parseFileStats s).1 = 0) ∧
    (∀ s : List Char, searchNumLit insertionLits s = none → (parseFileStats s).2.1 = 0) ∧
    (∀ s : List Char, searchNumLit deletionLits s = none → (parseFileStats s).2.2 = 0) ∧
    (∀ s : List Char, parseFileStats s =
      ((searchNumLit filesLits s).getD 0, (searchNumLit insertionLits s).getD 0,
       (searchNumLit deletionLits s).getD 0)) ∧
    parseFileStats [] = (0, 0, 0) ∧
    parseFileStats "3 files changed, 42 insertions(+), 15 deletions(-)".data = (3, 42, 15) ∧
    parseFileStats "1 file changed, 5 insertions(+)".data = (1, 5, 0) ∧
    parseFileStats "2 files changed, 20 insertions(+)".data = (2, 20, 0) := by
  refine ⟨?_, ?_, ?_, fun s => rfl, by decide, by decide, by decide, by decide⟩
  all_goals intro s h; simp [parseFileStats, h]

/-- Witness for C3 at a concrete summary with no matching pattern. -/
theorem file_stats_spec_witness :
    searchNumLit filesLits "no stats here".data = none ∧
    (parseFileStats "no stats here".data).1 = 0 :=
  ⟨by decide, file_stats_spec.1 _ (by decide)⟩

/-- Claim C4, counterexample: the default commit-type list is not the
nine-element list claimed; it also contains the tag `build`. -/
theorem default_commit_types_not_nine :
    "build".data ∈ (configOfDict DEFAULT_CONFIG).commit_types ∧
    ¬ (configOfDict DEFAULT_CONFIG).commit_types =
        ["feat".data, "fix".data, "docs".data, "style".data, "refactor".data,
         "test".data, "chore".data, "perf".data, "ci".data] := by
  decide

/-- Claim C4, amended: building a Config from the default mapping and
re-reading each field returns the declared defaults — diff cap 50000,
temperature 0.7, retries 3, and the ten commit-type tags feat, fix,
docs, style, refactor, test, chore, perf, ci, build. -/
theorem default_config_roundtrip :
    (configOfDict DEFAULT_CONFIG).max_diff_chars = 50000 ∧
    (configOfDict DEFAULT_CONFIG).temperature = 7 / 10 ∧
    (configOfDict DEFAULT_CONFIG).max_retries = 3 ∧
    (configOfDict DEFAULT_CONFIG).commit_types =
      ["feat".data, "fix".data, "docs".data, "style".data, "refactor".data,
       "test".data, "chore".data, "perf".data, "ci".data, "build".data] :=
  ⟨rfl, rfl, rfl, rfl⟩

/-- Claim C6: in `--branch` mode a failed branch lookup exits 1, and a
successful lookup whose parsed tracking info has ahead = 0 is an
informational no-op exiting 0 (whatever the later diff or generation
results would have been). -/
theorem branch_mode_exit_spec :
    (∀ (out : List Char) (d : Option BranchInfo) (m : Option (List Char)),
      branchMode (false, out) d m = 1) ∧
    (∀ (out : List Char) (d : Option BranchInfo) (m : Option (List Char)),
      (parse_tracking_info ((splitOnChar '|' out).getD 1 [])).1 = 0 →
      branchMode (true, out) d m = 0) := by
  constructor
  · intro out d m; rfl
  · intro out d m h
    simp only [List.getD, List.get?_eq_getElem?] at h
    simp [branchMode, List.getD, List.get?_eq_getElem?, h]

/-- Witness for C6: a concrete failed lookup and a concrete zero-ahead
lookup. -/
theorem branch_mode_exit_spec_witness :
    branchMode (false, []) none none = 1 ∧
    ((parse_tracking_info ((splitOnChar '|' "origin/main|[behind 2]".data).getD 1 [])).1 = 0 ∧
      branchMode (true, "origin/main|[behind 2]".data) none none = 0) :=
  ⟨branch_mode_exit_spec.1 [] none none,
   by decide,
   branch_mode_exit_spec.2 "origin/main|[behind 2]".data none none (by decide)⟩

/-- Claim C7: with the credential variable absent, the generator makes
no API call, yields no message, and reports a configuration error (and
not an API error). -/
theorem missing_api_key_spec :
    ∀ (api : Nat → ApiOutcome) (config : Config),
      generate_commit_message { api_key := none, api := api } config =
        { calls := 0, sleeps := [], result := none, errors := [GenError.configError] } ∧
      (generate_commit_message { api_key := none, api := api } config).result = none ∧
      (generate_commit_message { api_key := none, api := api } config).calls = 0 ∧
      GenError.apiFailure ∉ (generate_commit_message { api_key := none, api := api } config).errors := by
  intro api config
  refine ⟨rfl, rfl, rfl, ?_⟩
  show GenError.apiFailure ∉ [GenError.configError]
  simp

/-- Claim C9: diff text at or under the cap is returned unchanged by the
truncation step used in both collection modes. -/
theorem no_truncation_spec :
    ∀ (cap : Nat) (s : List Char), s.length ≤ cap → truncateDiff cap s = s := by
  intro cap s h
  unfold truncateDiff
  rw [if_neg (by omega)]

/-- Witness for C9 at a concrete short diff. -/
theorem no_truncation_spec_witness :
    ("abc".data).length ≤ 5 ∧ truncateDiff 5 "abc".data = "abc".data :=
  ⟨by decide, no_truncation_spec 5 "abc".data (by decide)⟩

/-- Claim C10: `load_config` never mutates the module-level default
mapping (it works on a copy), any sequence of loads leaves
`DEFAULT_CONFIG` holding its original values, and a load with no
override applied yields a Config identical to the defaults. -/
theorem load_config_frame_spec :
    (∀ (d : ConfigDict) (y : Bool) (o : Option PartialConfig), (load_config d y o).1 = d) ∧
    (∀ loads : List (Bool × Option PartialConfig), runLoads DEFAULT_CONFIG loads = DEFAULT_CONFIG) ∧
    (∀ (d : ConfigDict) (y : Bool), (load_config d y none).2 = configOfDict d) ∧
    (load_config DEFAULT_CONFIG true none).2 = configOfDict DEFAULT_CONFIG :=
  ⟨load_config_fst, fun loads => runLoads_id loads DEFAULT_CONFIG,
   fun d y => by cases y <;> rfl, rfl⟩

/-- Claim C1: for diff text strictly longer than the cap, the truncation
used in both collection modes produces exactly the first `cap` characters
followed by the annotation; the annotation contains the literal
`Truncated` and the original length in decimal; the annotation is not
counted against the cap, so the final length exceeds the cap.  The last
two conjuncts tie the shared truncation step to the diff content each
mode actually stores. -/
theorem truncation_spec :
    (∀ (cap : Nat) (s : List Char), cap < s.length →
      truncateDiff cap s = s.take cap ++ truncNote cap s.length ∧
      (truncateDiff cap s).take cap = s.take cap ∧
      containsLit "Truncated".data (truncNote cap s.length) = true ∧
      containsLit (Nat.repr s.length).data (truncNote cap s.length) = true ∧
      cap < (truncateDiff cap s).length) ∧
    (∀ (env : StagedEnv) (config : Config) (bi : BranchInfo),
      get_staged_changes env config = some bi →
      bi.diff_content = truncateDiff config.max_diff_chars env.cachedDiff.2) ∧
    (∀ (env : GitEnv) (branch : List Char) (u0 : Option (List Char))
        (config : Config) (bi : BranchInfo),
      get_branch_diff env branch u0 config = some bi →
      ∃ up, bi.upstream = some up ∧
        bi.diff_content = truncateDiff config.max_diff_chars (env.diffFor up branch).2) := by
  refine ⟨?_, ?_, ?_⟩
  · intro cap s h
    have heq : truncateDiff cap s = s.take cap ++ truncNote cap s.length := by
      unfold truncateDiff
      rw [if_pos h]
    have hlen : (s.take cap).length = cap := by
      rw [List.length_take, Nat.min_eq_left h.le]
    refine ⟨heq, ?_, ?_, ?_, ?_⟩
    · rw [heq, take_append_of_length _ hlen]
    · unfold truncNote
      have h0 : containsLit "Truncated".data "\n\n... [Truncated: showing first ".data
          = true := by decide
      exact containsLit_append_right _ (containsLit_append_right _
        (containsLit_append_right _ (containsLit_append_right _ h0)))
    · unfold truncNote
      rw [List.append_assoc]
      exact containsLit_append_left _ _ (containsLit_self_append _ _)
    · have h2 : (truncNote cap s.length) ≠ [] := by
        unfold truncNote
        simp only [List.append_assoc]
        intro hc
        rw [List.append_eq_nil] at hc
        exact (by decide : "\n\n... [Truncated: showing first ".data ≠ ([] : List Char)) hc.1
      have h3 : 0 < (truncNote cap s.length).length := List.length_pos.mpr h2
      rw [heq, List.length_append, hlen]
      omega
  · intro env config bi h
    simp only [get_staged_changes] at h
    split at h
    · exact Option.noConfusion h
    split at h
    · exact Option.noConfusion h
    split at h
    · exact Option.noConfusion h
    injection h with h'
    subst h'
    rfl
  · intro env branch u0 config bi h
    cases hres : resolveUpstream env u0 with
    | none => simp [get_branch_diff, hres] at h
    | some up =>
      simp only [get_branch_diff, hres] at h
      refine ⟨up, ?_⟩
      split at h
      · exact Option.noConfusion h
      split at h
      · exact Option.noConfusion h
      injection h with h'
      subst h'
      exact ⟨rfl, rfl⟩

/-- Witness for C1 at a concrete over-cap diff. -/
theorem truncation_spec_witness :
    (2 : Nat) < ("abcd".data).length ∧
    truncateDiff 2 "abcd".data = ("abcd".data).take 2 ++ truncNote 2 ("abcd".data).length ∧
    containsLit "Truncated".data (truncNote 2 ("abcd".data).length) = true ∧
    2 < (truncateDiff 2 "abcd".data).length :=
  ⟨by decide, (truncation_spec.1 2 "abcd".data (by decide)).1,
   (truncation_spec.1 2 "abcd".data (by decide)).2.2.1,
   (truncation_spec.1 2 "abcd".data (by decide)).2.2.2.2⟩

theorem not_mem_digits {c : Char} {ds : List Char} (hds : ∀ x ∈ ds, x.isDigit = true)
    (hc : c.isDigit = false) : c ∉ ds :=
  fun hm => absurd (hds c hm) (by simp [hc])

theorem not_mem_parts {c : Char} {A ds B : List Char} (hA : c ∉ A) (hds : c ∉ ds)
    (hB : c ∉ B) : c ∉ A ++ (ds ++ B) := by
  intro h
  simp only [List.mem_append] at h
  rcases h with h | h | h
  · exact hA h
  · exact hds h
  · exact hB h

theorem takeDigits_append {ds : List Char} (b : List Char)
    (hds : ∀ c ∈ ds, c.isDigit = true) (hb : headIsDigit b = false) :
    takeDigits (ds ++ b) = ds := by
  induction ds with
  | nil =>
    cases b with
    | nil => rfl
    | cons c cs =>
      have hc : c.isDigit = false := by simpa [headIsDigit] using hb
      simp [takeDigits, hc]
  | cons d ds ih =>
    have hd : d.isDigit = true := hds d (List.mem_cons_self d ds)
    have ih' := ih (fun c hc => hds c (List.mem_cons_of_mem d hc))
    simp [takeDigits, hd, ih']

theorem matchAt_lit_digits (lit ds b : List Char) (hne : ds ≠ [])
    (hds : ∀ c ∈ ds, c.isDigit = true) (hb : headIsDigit b = false) :
    matchAt lit (lit ++ (ds ++ b)) = some (decodeDigits ds) := by
  have h1 : litPre lit (lit ++ (ds ++ b)) = true := litPre_self_append lit (ds ++ b)
  have h2 : (lit ++ (ds ++ b)).drop lit.length = ds ++ b := by simp
  have h3 : takeDigits (ds ++ b) = ds := takeDigits_append b hds hb
  have h4 : ds.isEmpty = false := by
    cases ds with
    | nil => exact absurd rfl hne
    | cons d t => rfl
  simp [matchAt, h1, h2, h3, h4]

theorem matchAt_cons_of_ne {a c : Char} (lit' s : List Char) (h : c ≠ a) :
    matchAt (a :: lit') (c :: s) = none := by
  have hbeq : (a == c) = false := beq_eq_false_iff_ne.mpr (fun e => h e.symm)
  simp [matchAt, litPre, hbeq]

theorem searchLitNum_cons_of_none {lit : List Char} {c : Char} {cs : List Char}
    (h : matchAt lit (c :: cs) = none) :
    searchLitNum lit (c :: cs) = searchLitNum lit cs := by
  simp [searchLitNum, h]

theorem searchLitNum_skip (a : Char) (lit' : List Char) {pre : List Char} (t : List Char)
    (hpre : a ∉ pre) :
    searchLitNum (a :: lit') (pre ++ t) = searchLitNum (a :: lit') t := by
  induction pre with
  | nil => simp
  | cons c cs ih =>
    have hca : c ≠ a := fun e => hpre (by rw [e]; exact List.mem_cons_self a cs)
    have hacs : a ∉ cs := fun hm => hpre (List.mem_cons_of_mem c hm)
    have hm : matchAt (a :: lit') (c :: (cs ++ t)) = none := matchAt_cons_of_ne lit' _ hca
    calc searchLitNum (a :: lit') ((c :: cs) ++ t)
        = searchLitNum (a :: lit') (cs ++ t) := by
          rw [List.cons_append]
          exact searchLitNum_cons_of_none hm
      _ = searchLitNum (a :: lit') t := ih hacs

theorem searchLitNum_absent (a : Char) (lit' s : List Char) (h : a ∉ s) :
    searchLitNum (a :: lit') s = none := by
  have := searchLitNum_skip a lit' [] h
  simpa [searchLitNum] using this

theorem searchLitNum_found (a : Char) (lit' pre ds b : List Char)
    (hpre : a ∉ pre) (hne : ds ≠ []) (hds : ∀ c ∈ ds, c.isDigit = true)
    (hb : headIsDigit b = false) :
    searchLitNum (a :: lit') (pre ++ ((a :: lit') ++ (ds ++ b)))
      = some (decodeDigits ds) := by
  rw [searchLitNum_skip a lit' _ hpre]
  have hm := matchAt_lit_digits (a :: lit') ds b hne hds hb
  rw [List.cons_append] at hm ⊢
  simp [searchLitNum, hm]

theorem parse_tracking_eq {s : List Char} (hE : s.isEmpty = false)
    {x y : Option Nat} (ha : searchLitNum aheadLit s = x)
    (hb : searchLitNum behindLit s = y) :
    parse_tracking_info s = (x.getD 0, y.getD 0) := by
  unfold parse_tracking_info
  rw [if_neg (by rw [hE]; exact Bool.false_ne_true)]
  rw [ha, hb]

/-- Claim C2: for tracking strings carrying `ahead N` and/or `behind M`
in either order (with arbitrary digit strings for the counts),
`parse_tracking_info` returns exactly (N, M), each component defaulting
to 0 when its marker is absent; empty and bracket-only input yield
(0, 0); and whenever a marker's pattern fails to match, that component
is 0 (so malformed input never yields anything but defaults, and the
function is total). -/
theorem parse_tracking_info_spec :
    (∀ ds : List Char, ds ≠ [] → (∀ c ∈ ds, c.isDigit = true) →
      parse_tracking_info ("[ahead ".data ++ (ds ++ "]".data)) = (decodeDigits ds, 0)) ∧
    (∀ es : List Char, es ≠ [] → (∀ c ∈ es, c.isDigit = true) →
      parse_tracking_info ("[behind ".data ++ (es ++ "]".data)) = (0, decodeDigits es)) ∧
    (∀ ds es : List Char, ds ≠ [] → es ≠ [] → (∀ c ∈ ds, c.isDigit = true) →
      (∀ c ∈ es, c.isDigit = true) →
      parse_tracking_info
          ("[ahead ".data ++ (ds ++ (", behind ".data ++ (es ++ "]".data))))
        = (decodeDigits ds, decodeDigits es) ∧
      parse_tracking_info
          ("[behind ".data ++ (es ++ (", ahead ".data ++ (ds ++ "]".data))))
        = (decodeDigits ds, decodeDigits es)) ∧
    parse_tracking_info [] = (0, 0) ∧
    parse_tracking_info "[]".data = (0, 0) ∧
    (∀ s : List Char, searchLitNum aheadLit s = none → (parse_tracking_info s).1 = 0) ∧
    (∀ s : List Char, searchLitNum behindLit s = none → (parse_tracking_info s).2 = 0) := by
  refine ⟨?_, ?_, ?_, by decide, by decide, ?_, ?_⟩
  · intro ds hne hds
    have h1 : searchLitNum aheadLit ("[ahead ".data ++ (ds ++ "]".data))
        = some (decodeDigits ds) :=
      searchLitNum_found 'a' "head ".data ['['] ds "]".data (by decide) hne hds rfl
    have h2 : searchLitNum behindLit ("[ahead ".data ++ (ds ++ "]".data)) = none := by
      have hmem : 'b' ∉ "[ahead ".data ++ (ds ++ "]".data) :=
        not_mem_parts (by decide) (not_mem_digits hds (by decide)) (by decide)
      exact searchLitNum_absent 'b' "ehind ".data _ hmem
    exact parse_tracking_eq (by rfl) h1 h2
  · intro es hne hds
    have h1 : searchLitNum aheadLit ("[behind ".data ++ (es ++ "]".data)) = none := by
      have hmem : 'a' ∉ "[behind ".data ++ (es ++ "]".data) :=
        not_mem_parts (by decide) (not_mem_digits hds (by decide)) (by decide)
      exact searchLitNum_absent 'a' "head ".data _ hmem
    have h2 : searchLitNum behindLit ("[behind ".data ++ (es ++ "]".data))
        = some (decodeDigits es) :=
      searchLitNum_found 'b' "ehind ".data ['['] es "]".data (by decide) hne hds rfl
    exact parse_tracking_eq (by rfl) h1 h2
  · intro ds es hned hnee hdsd hdse
    constructor
    · have h1 : searchLitNum aheadLit
          ("[ahead ".data ++ (ds ++ (", behind ".data ++ (es ++ "]".data))))
          = some (decodeDigits ds) :=
        searchLitNum_found 'a' "head ".data ['['] ds
          (", behind ".data ++ (es ++ "]".data)) (by decide) hned hdsd rfl
      have h2 : searchLitNum behindLit
          ("[ahead ".data ++ (ds ++ (", behind ".data ++ (es ++ "]".data))))
          = some (decodeDigits es) := by
        have key := searchLitNum_found 'b' "ehind ".data
          ("[ahead ".data ++ (ds ++ ", ".data)) es "]".data
          (not_mem_parts (by decide) (not_mem_digits hdsd (by decide)) (by decide))
          hnee hdse rfl
        have hs : ("[ahead ".data ++ (ds ++ ", ".data))
              ++ (('b' :: "ehind ".data) ++ (es ++ "]".data))
            = "[ahead ".data ++ (ds ++ (", behind ".data ++ (es ++ "]".data))) := by
          simp only [List.append_assoc]
          try rfl
        rw [hs] at key
        exact key
      exact parse_tracking_eq (by rfl) h1 h2
    · have h1 : searchLitNum aheadLit
          ("[behind ".data ++ (es ++ (", ahead ".data ++ (ds ++ "]".data))))
          = some (decodeDigits ds) := by
        have key := searchLitNum_found 'a' "head ".data
          ("[behind ".data ++ (es ++ ", ".data)) ds "]".data
          (not_mem_parts (by decide) (not_mem_digits hdse (by decide)) (by decide))
          hned hdsd rfl
        have hs : ("[behind ".data ++ (es ++ ", ".data))
              ++ (('a' :: "head ".data) ++ (ds ++ "]".data))
            = "[behind ".data ++ (es ++ (", ahead ".data ++ (ds ++ "]".data))) := by
          simp only [List.append_assoc]
          try rfl
        rw [hs] at key
        exact key
      have h2 : searchLitNum behindLit
          ("[behind ".data ++ (es ++ (", ahead ".data ++ (ds ++ "]".data))))
          = some (decodeDigits es) :=
        searchLitNum_found 'b' "ehind ".data ['['] es
          (", ahead ".data ++ (ds ++ "]".data)) (by decide) hnee hdse rfl
      exact parse_tracking_eq (by rfl) h1 h2
  · intro s h
    unfold parse_tracking_info
    split
    · rfl
    · rw [h]; rfl
  · intro s h
    unfold parse_tracking_info
    split
    · rfl
    · rw [h]; rfl

/-- Witness for C2 at the concrete tracking string `[ahead 12, behind 3]`. -/
theorem parse_tracking_info_spec_witness :
    (['1', '2'] ≠ ([] : List Char) ∧ ∀ c ∈ ['1', '2'], c.isDigit = true) ∧
    "[ahead ".data ++ (['1', '2'] ++ (", behind ".data ++ (['3'] ++ "]".data)))
      = "[ahead 12, behind 3]".data ∧
    parse_tracking_info
        ("[ahead ".data ++ (['1', '2'] ++ (", behind ".data ++ (['3'] ++ "]".data))))
      = (12, 3) := by
  refine ⟨⟨by decide, by decide⟩, by decide, ?_⟩
  have h := (parse_tracking_info_spec.2.2.1 ['1', '2'] ['3']
    (by decide) (by decide) (by decide) (by decide)).1
  exact h.trans (by decide)

theorem findCandidate_eq_find (f : List Char → Bool) (l : List (List Char)) :
    findCandidate f l = l.find? f := by
  induction l with
  | nil => rfl
  | cons c cs ih =>
    by_cases h : f c
    · simp [findCandidate, List.find?, h]
    · simp [findCandidate, List.find?, h, ih]

theorem findCandidate_mem {f : List Char → Bool} {l : List (List Char)} {c : List Char}
    (h : findCandidate f l = some c) : c ∈ l := by
  induction l with
  | nil => exact Option.noConfusion h
  | cons x xs ih =>
    simp only [findCandidate] at h
    split at h
    · injection h with h'
      subst h'
      exact List.mem_cons_self x xs
    · exact List.mem_cons_of_mem x (ih h)

theorem resolveUpstream_symRef_ok (env : GitEnv) (h : env.symRefOriginHead.1 = true) :
    resolveUpstream env none =
      (if (stripRemotesAll env.symRefOriginHead.2).isEmpty then none
       else some (stripRemotesAll env.symRefOriginHead.2)) := by
  simp only [resolveUpstream, optFalsy, h, if_true, ite_true]

theorem resolveUpstream_symRef_fail (env : GitEnv) (h : env.symRefOriginHead.1 = false) :
    resolveUpstream env none = findCandidate env.verifyRef candidateUpstreams := by
  simp only [resolveUpstream, optFalsy, h, Bool.false_eq_true, if_false, ite_true]
  cases hv : findCandidate env.verifyRef candidateUpstreams with
  | none => simp
  | some v =>
    have hm := findCandidate_mem hv
    have hv' : v.isEmpty = false := by
      have hcase : v = "origin/main".data ∨ v = "origin/master".data ∨
          v = "main".data ∨ v = "master".data := by
        simpa [candidateUpstreams] using hm
      rcases hcase with rfl | rfl | rfl | rfl <;> rfl
    simp [hv']

/-- Claim C8: with no upstream supplied, resolution tries the remote's
symbolic default-branch reference first (stripping `refs/remotes/`, and
never consulting the candidate list), then falls back to the first of
`origin/main`, `origin/master`, `main`, `master` that verifies (the
library's first-match `find?`); and if the symbolic reference fails and
no candidate verifies, `get_branch_diff` returns `none` (the branch is
skipped) rather than failing. -/
theorem upstream_resolution_spec :
    (∀ env : GitEnv, env.symRefOriginHead.1 = true →
      resolveUpstream env none =
        (if (stripRemotesAll env.symRefOriginHead.2).isEmpty then none
         else some (stripRemotesAll env.symRefOriginHead.2))) ∧
    (∀ (sr : Bool × List Char) (v w : List Char → Bool)
        (d1 d2 d3 : List Char → List Char → Bool × List Char)
        (d4 : List Char → Bool × List Char), sr.1 = true →
      resolveUpstream ⟨sr, v, d1, d2, d3, d4⟩ none
        = resolveUpstream ⟨sr, w, d1, d2, d3, d4⟩ none) ∧
    (∀ env : GitEnv, env.symRefOriginHead.1 = false →
      resolveUpstream env none = findCandidate env.verifyRef candidateUpstreams) ∧
    (∀ (f : List Char → Bool) (l : List (List Char)), findCandidate f l = l.find? f) ∧
    (∀ env : GitEnv, env.symRefOriginHead.1 = false →
      (∀ c ∈ candidateUpstreams, env.verifyRef c = false) →
      ∀ (branch : List Char) (config : Config),
        get_branch_diff env branch none config = none) := by
  refine ⟨resolveUpstream_symRef_ok, ?_, resolveUpstream_symRef_fail,
    findCandidate_eq_find, ?_⟩
  · intro sr v w d1 d2 d3 d4 h
    rw [resolveUpstream_symRef_ok ⟨sr, v, d1, d2, d3, d4⟩ h,
      resolveUpstream_symRef_ok ⟨sr, w, d1, d2, d3, d4⟩ h]
  · intro env h hall branch config
    have h1 := hall "origin/main".data (by simp [candidateUpstreams])
    have h2 := hall "origin/master".data (by simp [candidateUpstreams])
    have h3 := hall "main".data (by simp [candidateUpstreams])
    have h4 := hall "master".data (by simp [candidateUpstreams])
    have hfc : findCandidate env.verifyRef candidateUpstreams = none := by
      simp [candidateUpstreams, findCandidate, h1, h2, h3, h4]
    have hres : resolveUpstream env none = none :=
      (resolveUpstream_symRef_fail env h).trans hfc
    simp [get_branch_diff, hres]

/-- Witness for C8: a concrete symbolic-ref success (with the
`refs/remotes/` marker stripped), and a concrete fallback environment in
which only `origin/master` verifies. -/
theorem upstream_resolution_spec_witness :
    (let env : GitEnv :=
      ⟨(true, "refs/remotes/origin/main".data), fun _ => false,
       fun _ _ => (true, []), fun _ _ => (true, []), fun _ _ => (true, []),
       fun _ => (true, [])⟩
     env.symRefOriginHead.1 = true ∧
       resolveUpstream env none = some ("origin/main".data)) ∧
    (let env2 : GitEnv :=
      ⟨(false, []), fun c => c == "origin/master".data,
       fun _ _ => (true, []), fun _ _ => (true, []), fun _ _ => (true, []),
       fun _ => (true, [])⟩
     env2.symRefOriginHead.1 = false ∧
       resolveUpstream env2 none = some ("origin/master".data)) := by
  constructor
  · refine ⟨rfl, ?_⟩
    have h := resolveUpstream_symRef_ok
      ⟨(true, "refs/remotes/origin/main".data), fun _ => false,
       fun _ _ => (true, []), fun _ _ => (true, []), fun _ _ => (true, []),
       fun _ => (true, [])⟩ rfl
    rw [h]
    decide
  · refine ⟨rfl, ?_⟩
    have h := upstream_resolution_spec.2.2.1
      ⟨(false, []), fun c => c == "origin/master".data,
       fun _ _ => (true, []), fun _ _ => (true, []), fun _ _ => (true, []),
       fun _ => (true, [])⟩ rfl
    rw [h]
    decide

theorem genLoop_rateLimit (api : Nat → ApiOutcome)
    (hapi : ∀ i, api i = ApiOutcome.rateLimit) :
    ∀ m k last : Nat, 0 < m → k + m = last + 1 →
    genLoop api last (List.range' k m) =
      { calls := m, sleeps := (List.range' k (m - 1)).map (fun a => 2 ^ a),
        result := none, errors := [GenError.rateLimitExhausted] } := by
  intro m
  induction m with
  | zero => intro k last h; omega
  | succ m ih =>
    intro k last _ hsum
    rw [List.range'_succ]
    by_cases hm : m = 0
    · subst hm
      have hk : ¬ k < last := by omega
      simp only [genLoop, hapi k, hk, if_false]
      rfl
    · have hm' : 0 < m := Nat.pos_of_ne_zero hm
      have hk : k < last := by omega
      simp only [genLoop, hapi k, hk, if_true]
      rw [ih (k + 1) last hm' (by omega)]
      have hr : List.range' k (m + 1 - 1) = k :: List.range' (k + 1) (m - 1) := by
        have : m + 1 - 1 = (m - 1) + 1 := by omega
        rw [this, List.range'_succ]
      rw [hr]
      rfl

theorem genLoop_calls_le (api : Nat → ApiOutcome) (last : Nat) :
    ∀ l : List Nat, (genLoop api last l).calls ≤ l.length := by
  intro l
  induction l with
  | nil => simp [genLoop]
  | cons attempt rest ih =>
    cases hA : api attempt with
    | success content =>
      cases content with
      | nil =>
        simp only [genLoop, hA, List.length_cons]
        omega
      | cons t ts =>
        simp only [genLoop, hA, List.length_cons]
        omega
    | rateLimit =>
      by_cases hlt : attempt < last
      · simp only [genLoop, hA, hlt, if_true, List.length_cons]
        omega
      · simp only [genLoop, hA, hlt, if_false, List.length_cons]
        omega
    | apiError =>
      simp only [genLoop, hA, List.length_cons]
      omega
    | otherError =>
      simp only [genLoop, hA, List.length_cons]
      omega

/-- Claim C5: when every attempt is rate-limited, the generator makes
exactly `max_retries` attempts (so at most `max_retries` retries) with
backoff sleeps of `2 ^ attempt` seconds between consecutive attempts,
and on exhaustion reports the rate-limit error and yields no message;
any other API error on the first attempt terminates immediately after
that one call, with no sleep and no message; and for every environment
the number of API calls never exceeds `max_retries`. -/
theorem retry_policy_spec :
    (∀ (api : Nat → ApiOutcome) (key : List Char) (config : Config),
      (∀ i, api i = ApiOutcome.rateLimit) → 0 < config.max_retries →
      (generate_commit_message ⟨some key, api⟩ config).result = none ∧
      (generate_commit_message ⟨some key, api⟩ config).calls = config.max_retries ∧
      (generate_commit_message ⟨some key, api⟩ config).sleeps
        = (List.range (config.max_retries - 1)).map (fun attempt => 2 ^ attempt) ∧
      (generate_commit_message ⟨some key, api⟩ config).errors
        = [GenError.rateLimitExhausted]) ∧
    (∀ (api : Nat → ApiOutcome) (key : List Char) (config : Config),
      api 0 = ApiOutcome.apiError → 0 < config.max_retries →
      generate_commit_message ⟨some key, api⟩ config
        = { calls := 1, sleeps := [], result := none,
            errors := [GenError.apiFailure] }) ∧
    (∀ (env : GenEnv) (config : Config),
      (generate_commit_message env config).calls ≤ config.max_retries) := by
  refine ⟨?_, ?_, ?_⟩
  · intro api key config hapi hpos
    have hmain : generate_commit_message ⟨some key, api⟩ config
        = { calls := config.max_retries,
            sleeps := (List.range' 0 (config.max_retries - 1)).map (fun a => 2 ^ a),
            result := none, errors := [GenError.rateLimitExhausted] } := by
      show genLoop api (config.max_retries - 1) (List.range config.max_retries) = _
      rw [List.range_eq_range']
      exact genLoop_rateLimit api hapi config.max_retries 0 (config.max_retries - 1)
        hpos (by omega)
    rw [hmain, List.range_eq_range']
    exact ⟨rfl, rfl, rfl, rfl⟩
  · intro api key config hapi hpos
    obtain ⟨m, hm⟩ : ∃ m, config.max_retries = m + 1 :=
      ⟨config.max_retries - 1, by omega⟩
    show genLoop api (config.max_retries - 1) (List.range config.max_retries) = _
    rw [hm, List.range_eq_range', List.range'_succ]
    simp only [genLoop, hapi]
  · intro env config
    cases hk : env.api_key with
    | none =>
      show (generate_commit_message env config).calls ≤ config.max_retries
      unfold generate_commit_message
      rw [hk]
      exact Nat.zero_le _
    | some key =>
      unfold generate_commit_message
      rw [hk]
      have := genLoop_calls_le env.api (config.max_retries - 1)
        (List.range config.max_retries)
      rwa [List.length_range] at this

/-- Witness for C5: with the default configuration (3 retries) and an
always-rate-limited API, the generator makes 3 calls and sleeps 1 then 2
seconds. -/
theorem retry_policy_spec_witness :
    ((∀ i : Nat, (fun _ : Nat => ApiOutcome.rateLimit) i = ApiOutcome.rateLimit) ∧
      0 < (configOfDict DEFAULT_CONFIG).max_retries) ∧
    (generate_commit_message ⟨some "k".data, fun _ => ApiOutcome.rateLimit⟩
        (configOfDict DEFAULT_CONFIG)).calls = 3 ∧
    (generate_commit_message ⟨some "k".data, fun _ => ApiOutcome.rateLimit⟩
        (configOfDict DEFAULT_CONFIG)).sleeps = [1, 2] ∧
    (generate_commit_message ⟨some "k".data, fun _ => ApiOutcome.rateLimit⟩
        (configOfDict DEFAULT_CONFIG)).result = none := by
  have h := retry_policy_spec.1 (fun _ => ApiOutcome.rateLimit) "k".data
    (configOfDict DEFAULT_CONFIG) (fun _ => rfl) (by decide)
  refine ⟨⟨fun _ => rfl, by decide⟩, ?_, ?_, h.1⟩
  · rw [h.2.1]
    decide
  · rw [h.2.2.1]
    decide
